import Mathlib

/-!
A verification development for `src/lsoph/ui/detail_screen.py` (the
`DetailScreen.on_mount` table-building pipeline).

The embedding models Python values, the event dictionaries, and the row
formatting loop of `on_mount` faithfully, line by line.  Python machine
behaviour that matters here:

* `os.fsdecode(filename)` takes exactly one positional argument; the calls
  `os.fsdecode(v, "surrogateescape")` at lines 144 and 159 of the source
  therefore raise `TypeError` whenever they are reached (i.e. whenever a
  details value is a `bytes` object).
* `f"{x:.3f}"` raises `ValueError` for `str` arguments and `TypeError` for
  `None`/`bytes` arguments; it succeeds for `int`, `float` and `bool`.
* `datetime.datetime.fromtimestamp(t)` (naive, local time) fails in two
  regimes: a seconds value that does not fit the platform's 64-bit
  `time_t` raises `OverflowError` (uncaught by line 102's `except`
  tuple); a value within `time_t` range whose local date falls outside
  years 1–9999 raises `ValueError`/`OSError` (caught).
* Python `dict` preserves insertion order; assigning to an existing key
  keeps the key's original position.

Numbers are modelled as exact rationals (`ℚ`); `float`-specific artifacts
(binary rounding of literals, the sign of negative zero in `%.3f`, and the
decimal repr of non-integral floats) are not modelled — no claim below
depends on them.
-/

namespace Lsoph

/-- Python values as they occur in event dictionaries.  `num` covers both
`int` and `float` (exact rationals; see module comment). -/
inductive PyVal where
  | none
  | bool (b : Bool)
  | num (q : ℚ)
  | str (s : String)
  | bytes (bs : List Nat)
deriving DecidableEq, Repr

/-- The Python exception kinds that the modelled code can raise.
`overflowError` matters because line 102 catches only
`(TypeError, ValueError, OSError)` — an `OverflowError` from
`fromtimestamp` is NOT caught and aborts the row. -/
inductive PyErr where
  | typeError
  | valueError
  | attributeError
  | overflowError
deriving DecidableEq, Repr

deriving instance DecidableEq for Except

/-- One raw event record: the dictionary shape read by `on_mount` via
`event.get("ts", 0)`, `event.get("type", "?")`, `event.get("success", True)`
and `event.get("details", {})`.  An absent `details` key is modelled as the
empty association list (Python's `{}` default behaves identically in the
loop below). -/
structure RawEvent where
  ts : Option PyVal
  type : Option PyVal
  success : Option PyVal
  details : List (String × PyVal)
deriving DecidableEq, Repr

/-- Python truthiness of a `PyVal` (used for `success` and `error_name`). -/
def truthy : PyVal → Bool
  | .none => false
  | .bool b => b
  | .num q => decide (q ≠ 0)
  | .str s => decide (s ≠ "")
  | .bytes bs => decide (bs ≠ [])

/-- `isinstance(v, (int, float))` together with the numeric value used by
arithmetic and `%f` formatting (`bool` is a subclass of `int` in Python). -/
def toNum : PyVal → Option ℚ
  | .num q => some q
  | .bool b => some (if b then 1 else 0)
  | _ => Option.none

/-- ASCII upper-casing of one character (`str.upper()`; event type tags
are ASCII, so the Unicode case table is not modelled). -/
def upperChar (c : Char) : Char :=
  if 97 ≤ c.toNat && c.toNat ≤ 122 then Char.ofNat (c.toNat - 32) else c

/-- Python `s.upper()`. -/
def pyUpper (s : String) : String := String.mk (s.data.map upperChar)

/-- `str(v)` for the values that can appear in the `type` field. -/
def pyStr : PyVal → String
  | .none => "None"
  | .bool b => if b then "True" else "False"
  | .num q => if q.den = 1 then toString q.num else toString q
  | .str s => s
  | .bytes _ => "b..."

/-- Python `repr` of a string without escape-worthy characters: single
quotes by default, double quotes when the string contains `'` but no `"`
(backslash/control-character escaping is not modelled; the claims only use
plain ASCII identifiers). -/
def pyReprStr (s : String) : String :=
  if s.data.contains '\'' && !(s.data.contains '"') then
    "\"" ++ s ++ "\""
  else
    "'" ++ s ++ "'"

/-- `repr(v)` as used by `f"{k}={v!r}"` for the detail values that survive
filtering (bytes never survive: decoding them raises first). -/
def pyRepr : PyVal → String
  | .str s => pyReprStr s
  | .num q => if q.den = 1 then toString q.num else toString q
  | .bool b => if b then "True" else "False"
  | .none => "None"
  | .bytes _ => "b..."

/-- Association-list lookup, i.e. Python `d[k]` / `d.get(k)` for a dict
whose keys are unique. -/
def alookup (k : String) : List (String × α) → Option α
  | [] => Option.none
  | (k', v) :: rest => if k' = k then some v else alookup k rest

/-- Python dict assignment `d[k] = v` on an insertion-ordered association
list: an existing binding keeps its position, a new key is appended. -/
def dictSet : List (String × α) → String → α → List (String × α)
  | [], k, v => [(k, v)]
  | (k', v') :: rest, k, v =>
      if k' = k then (k, v) :: rest else (k', v') :: dictSet rest k v

/-- Rounding half-to-even of `q * m` to an integer, as CPython rounds a
float seconds value to whole micro-units (`datetime.fromtimestamp`) or
`%.3f` rounds to milli-units.  `q * m = (q.num * m) / q.den`; the floor is
taken with Euclidean division (the divisor `q.den` is positive, so this is
floor division) and the fractional part is compared with `1/2` by
cross-multiplication, keeping the whole computation in `Int`. -/
def rheMul (q : ℚ) (m : Int) : Int :=
  let n : Int := q.num * m
  let d : Int := (q.den : Int)
  let f : Int := n / d
  let twiceRem : Int := 2 * (n - f * d)
  if twiceRem < d then f
  else if d < twiceRem then f + 1
  else if f % 2 = 0 then f else f + 1

/-- The decimal digit character of `n % 10`. -/
def digitChar (n : Nat) : Char := Char.ofNat (48 + n % 10)

/-- Two-digit zero-padded decimal (strftime `%H`, `%M`, `%S`). -/
def pad2 (n : Nat) : String := String.mk [digitChar (n / 10), digitChar n]

/-- Three-digit zero-padded decimal. -/
def pad3 (n : Nat) : String :=
  String.mk [digitChar (n / 100), digitChar (n / 10), digitChar n]

/-- Six-digit zero-padded decimal (strftime `%f`). -/
def pad6 (n : Nat) : String :=
  String.mk [digitChar (n / 100000), digitChar (n / 10000), digitChar (n / 1000),
             digitChar (n / 100), digitChar (n / 10), digitChar n]

/-- `f"{q:.3f}"` on an exact rational: round to milli-units half-to-even
and render with three decimals (the sign of float negative zero is not
modelled). -/
def formatF3 (q : ℚ) : String :=
  let m : Int := rheMul q 1000
  let sign := if m < 0 then "-" else ""
  let n := m.natAbs
  sign ++ toString (n / 1000) ++ "." ++ pad3 (n % 1000)

def usecPerDay : Int := 86400000000

/-- Local-time microseconds since the Unix epoch for a timestamp `q` under
a fixed UTC offset of `tz` seconds (`datetime.fromtimestamp` uses the local
timezone; the offset is a parameter of the whole development). -/
def localUsec (tz : Int) (q : ℚ) : Int := rheMul q 1000000 + tz * 1000000

/-- Whether `datetime.fromtimestamp` succeeds: the local date must fall in
years 1–9999 (0001-01-01 is day −719162 of the epoch and 9999-12-31 ends
before day 2932897).  Out-of-range values raise `ValueError` ("year … is
out of range"), which line 102 of the source catches. -/
def tsConvertible (u : Int) : Bool :=
  decide ((-719162) * usecPerDay ≤ u ∧ u < 2932897 * usecPerDay)

/-- Microsecond of the local day. -/
def usecOfDay (u : Int) : Nat := (u % usecPerDay).toNat

/-- strftime `"%H:%M:%S.%f"` for a microsecond-of-day value. -/
def strftimeHMSfOfDay (d : Nat) : String :=
  pad2 (d / 3600000000) ++ ":" ++ pad2 (d / 60000000 % 60) ++ ":" ++
    pad2 (d / 1000000 % 60) ++ "." ++ pad6 (d % 1000000)

/-- strftime `"%H:%M:%S.%f"` of a local-time instant given in microseconds
since the epoch. -/
def strftimeHMSf (u : Int) : String := strftimeHMSfOfDay (usecOfDay u)

/-- Python slicing `s[:-3]`: drop the last three characters. -/
def dropLast3 (s : String) : String :=
  String.mk (s.data.take (s.data.length - 3))

/-- Whether the timestamp's seconds value fits the platform's 64-bit
`time_t`, i.e. `-2^63 ≤ q < 2^63`, compared by cross-multiplication with
the positive denominator.  `datetime.fromtimestamp` first converts its
argument to `time_t`; a value outside this range raises `OverflowError`
("timestamp out of range for platform time_t"), which line 102's
`except (TypeError, ValueError, OSError)` does NOT catch.  (The exact
behaviour within a unit of the boundary depends on CPython's float
rounding and is not modelled; the claims use values far from it.) -/
def tsFitsTimeT (q : ℚ) : Bool :=
  decide ((-9223372036854775808 : Int) * (q.den : Int) ≤ q.num ∧
    q.num < (9223372036854775808 : Int) * (q.den : Int))

/-- Lines 95–104 of the source: `ts_raw = event.get("ts", 0)`, the
unconditional fallback `ts_str = f"{ts_raw:.3f}"` (which itself raises for
non-numeric values), then the guarded `fromtimestamp(...).strftime(...)`.
`fromtimestamp` fails in two regimes, in this order: a seconds value
beyond the `time_t` range raises `OverflowError`, which the `except`
tuple at line 102 does not catch, so it propagates and aborts the row;
a value within `time_t` range whose local date falls outside years
1–9999 raises `ValueError`/`OSError`, which IS caught and logged as a
warning, leaving the fallback text.  Returns the timestamp text together
with whether a warning was logged. -/
def formatTs (tz : Int) (tsRaw : PyVal) : Except PyErr (String × Bool) :=
  match toNum tsRaw with
  | Option.none =>
      match tsRaw with
      | .str _ => .error .valueError
      | _ => .error .typeError
  | some q =>
      let fallback := formatF3 q
      if 0 < q then
        if tsFitsTimeT q then
          let u := localUsec tz q
          if tsConvertible u then .ok (dropLast3 (strftimeHMSf u), false)
          else .ok (fallback, true)
        else .error .overflowError
      else .ok (fallback, false)

/-- The key exclusion list of lines 130–141. -/
def EXCLUDED : List String :=
  ["syscall", "type", "success", "ts", "error_msg",
   "target_path", "source_path", "renamed_to", "renamed_from"]

/-- The specially handled path keys of lines 149–154. -/
def PATH_KEYS : List String :=
  ["target_path", "source_path", "renamed_to", "renamed_from"]

/-- A value stored in `filtered_details`: either a plain Python value or a
`rich.text.Text` (only ever created for the `ERROR` entry). -/
inductive DetailVal where
  | py (v : PyVal)
  | text (s : String)
deriving DecidableEq, Repr

/-- The filter loop (lines 129–146): skip excluded keys; for a bytes value
the call `os.fsdecode(v, "surrogateescape")` raises `TypeError`
(`os.fsdecode` accepts a single argument); other values are stored
unchanged in `filtered_details`. -/
def filterLoop : List (String × PyVal) → List (String × DetailVal) →
    Except PyErr (List (String × DetailVal))
  | [], acc => .ok acc
  | (k, v) :: rest, acc =>
      if k ∈ EXCLUDED then filterLoop rest acc
      else
        match v with
        | .bytes _ => .error .typeError
        | v => filterLoop rest (dictSet acc k (.py v))

/-- The path-key loop (lines 149–161), iterating a list of keys: for each
special path key bound to a bytes value, the two-argument `os.fsdecode`
call raises `TypeError`; keys that are absent or not bytes are skipped, so
this loop never actually adds an entry. -/
def addPathKeysAux (details : List (String × PyVal)) :
    List String → List (String × DetailVal) → Except PyErr (List (String × DetailVal))
  | [], acc => .ok acc
  | k :: ks, acc =>
      match alookup k details with
      | some (.bytes _) => .error .typeError
      | _ => addPathKeysAux details ks acc

/-- The path-key loop over the four special keys of lines 149–154. -/
def addPathKeys (details : List (String × PyVal))
    (acc : List (String × DetailVal)) : Except PyErr (List (String × DetailVal)) :=
  addPathKeysAux details PATH_KEYS acc

/-- Lines 163–165: if `error_name` is truthy and the event failed, assign
`filtered_details["ERROR"] = Text(error_name)`; `rich.text.Text` requires a
`str` argument and raises for anything else. -/
def addError (details : List (String × PyVal)) (success : Bool)
    (acc : List (String × DetailVal)) : Except PyErr (List (String × DetailVal)) :=
  let errorName := (alookup "error_name" details).getD .none
  if truthy errorName && !success then
    match errorName with
    | .str s => .ok (dictSet acc "ERROR" (.text s))
    | _ => .error .attributeError
  else .ok acc

/-- Lines 168–173: one `k=v` detail part — `f"{k}={v.plain!r}"` for `Text`
values and `f"{k}={v!r}"` otherwise. -/
def partOf : String × DetailVal → String
  | (k, .text s) => k ++ "=" ++ pyReprStr s
  | (k, .py v) => k ++ "=" ++ pyRepr v

/-- `", ".join(parts)` (line 175). -/
def joinSep (sep : String) : List String → String
  | [] => ""
  | [x] => x
  | x :: y :: xs => x ++ sep ++ joinSep sep (y :: xs)

/-- Modelled from the spec: `short_path` (module `lsoph.util.short_path`,
not under `src/`) composed with the UTF-8/surrogateescape round trip of
line 178.  Per §4.1 the codec round-trips text exactly, and per §4.2 the
shortener returns the text unchanged when it fits, otherwise exactly
`maxWidth` characters `<prefix><ellipsis><suffix>` with the prefix getting
at most 40% of the remaining budget (rounded down) and the suffix the
rest; for `maxWidth < 2` just the ellipsis truncated to `maxWidth`. -/
def shorten (s : String) (maxWidth : Nat) : String :=
  if s.data.length ≤ maxWidth then s
  else if maxWidth < 2 then String.mk (List.take maxWidth ['…'])
  else
    let budget := maxWidth - 1
    let pre := 2 * budget / 5
    let suf := budget - pre
    String.mk (s.data.take pre ++ '…' :: s.data.drop (s.data.length - suf))

/-- Modelled from the spec: the icon configuration maps (module
`lsoph.ui.emoji`, not under `src/`).  The concrete glyphs are immaterial to
every claim; only the lookup structure (per-type icon, an `ERROR` icon, a
default) is used. -/
def EVENT_EMOJI_MAP : List (String × String) :=
  [("ERROR", "❗"), ("OPEN", "📂"), ("READ", "📖"), ("WRITE", "📝"),
   ("CLOSE", "📕"), ("RENAME", "🔄"), ("DELETE", "🗑")]

/-- Modelled from the spec: the default icon for unrecognized event types. -/
def DEFAULT_EMOJI : String := "❔"

/-- The four cell texts of one formatted event row. -/
structure DisplayRow where
  tsText : String
  eventText : String
  resultText : String
  detailsText : String
deriving DecidableEq, Repr

/-- The `filtered_details` dictionary as it stands at line 175: filter
loop, path-key loop, then the `ERROR` entry. -/
def filteredDetails (e : RawEvent) : Except PyErr (List (String × DetailVal)) :=
  match filterLoop e.details [] with
  | .error err => .error err
  | .ok fd =>
      match addPathKeys e.details fd with
      | .error err => .error err
      | .ok fd => addError e.details (truthy (e.success.getD (.bool true))) fd

/-- The joined `", "`-separated details string of line 175. -/
def detailsJoined (e : RawEvent) : Except PyErr String :=
  match filteredDetails e with
  | .error err => .error err
  | .ok fd => .ok (joinSep ", " (fd.map partOf))

/-- The body of the per-event loop (lines 93–183): format one event into
its row.  Returns the row and whether a timestamp warning was logged; any
exception propagates (there is no per-event handler in the source). -/
def formatRow (tz : Int) (e : RawEvent) : Except PyErr (DisplayRow × Bool) :=
  match formatTs tz (e.ts.getD (.num 0)) with
  | .error err => .error err
  | .ok (tsStr, warned) =>
      let etype := pyUpper (pyStr (e.type.getD (.str "?")))
      let succ := truthy (e.success.getD (.bool true))
      let emoji :=
        if succ then (alookup etype EVENT_EMOJI_MAP).getD DEFAULT_EMOJI
        else (alookup "ERROR" EVENT_EMOJI_MAP).getD DEFAULT_EMOJI
      let result := if succ then "OK" else "FAIL"
      match detailsJoined e with
      | .error err => .error err
      | .ok dstr =>
          .ok ({ tsText := tsStr
                 eventText := emoji ++ " " ++ etype
                 resultText := result
                 detailsText := shorten dstr 100 }, warned)

/-- The cells `table.add_row(ts_text, etype_text, result_text, details_text)`
appends for one successfully formatted event. -/
def rowCells (r : DisplayRow) : List String :=
  [r.tsText, r.eventText, r.resultText, r.detailsText]

/-- The `for event in history` loop: rows accumulate in order; the first
exception aborts the remainder of the loop. -/
def buildLoop (tz : Int) : List RawEvent → List (List String) →
    Except PyErr (List (List String))
  | [], acc => .ok acc
  | e :: rest, acc =>
      match formatRow tz e with
      | .error err => .error err
      | .ok (r, _) => buildLoop tz rest (acc ++ [rowCells r])

/-- Representative `str(e)` texts for the modelled exceptions (only their
existence matters to the claims, not their wording). -/
def errStr : PyErr → String
  | .typeError => "fsdecode() takes 1 positional argument but 2 were given"
  | .valueError => "invalid value"
  | .attributeError => "object has no attribute"
  | .overflowError => "timestamp out of range for platform time_t"

/-- The observable outcome of `on_mount`: the final table rows (each row a
list of cell texts), whether `self.notify(...)` ran, and whether
`log.exception` ran. -/
structure BuildResult where
  rows : List (List String)
  notified : Bool
  errorLogged : Bool
deriving DecidableEq, Repr

/-- `on_mount` (lines 65–198): the empty-history early return with its
single informational row; otherwise the event loop.  Any exception reaches
the handler at line 188, which logs, clears the table, adds the single
`"Error loading details: ..."` row and notifies — so the function is total
and no exception propagates to the caller. -/
def onMount (tz : Int) (history : List RawEvent) : BuildResult :=
  if history = [] then
    { rows := [["No event history recorded for this file."]]
      notified := false
      errorLogged := false }
  else
    match buildLoop tz history [] with
    | .ok rows => { rows := rows, notified := false, errorLogged := false }
    | .error err =>
        { rows := [["Error loading details: " ++ errStr err]]
          notified := true
          errorLogged := true }

/-! Concrete events used by the witnesses and counterexamples below. -/

/-- A successful `open` event whose `target_path` detail is the invalid
byte sequence `b"\xff"`. -/
def evC1 : RawEvent :=
  { ts := some (.num 1), type := some (.str "open"),
    success := some (.bool true), details := [("target_path", .bytes [255])] }

/-- A well-formed `read` event. -/
def evC2good : RawEvent :=
  { ts := some (.num 1700000000), type := some (.str "read"),
    success := some (.bool true), details := [("fd", .num 3)] }

/-- An event whose `ts` is the string `"abc"`: `f"{ts_raw:.3f}"` raises. -/
def evC2bad : RawEvent :=
  { ts := some (.str "abc"), type := some (.str "read"),
    success := some (.bool true), details := [] }

/-- An event whose `ts` is the string `"abc"` (for the C3 counterexample). -/
def evC3bad : RawEvent :=
  { ts := some (.str "abc"), type := some (.str "write"),
    success := some (.bool true), details := [("fd", .num 7)] }

/-- An event with a bytes-valued ordinary detail (`buf`), which makes the
filter loop raise. -/
def evC5bad : RawEvent :=
  { ts := some (.num 2), type := some (.str "write"),
    success := some (.bool true), details := [("buf", .bytes [0, 159])] }

/-- A well-formed `close` event. -/
def evC5a : RawEvent :=
  { ts := some (.num 1700000000), type := some (.str "close"),
    success := some (.bool true), details := [("fd", .num 4)] }

/-- A well-formed failed `open` event. -/
def evC5b : RawEvent :=
  { ts := some (.num 1700000001), type := some (.str "open"),
    success := some (.bool false), details := [("error_name", .str "EACCES")] }

/-- An event with the fractional timestamp `1700000000.123`. -/
def evC6 : RawEvent :=
  { ts := some (.num (mkRat 1700000000123 1000)), type := some (.str "read"),
    success := some (.bool true), details := [("fd", .num 3)] }

/-- An event whose `renamed_to` detail is an invalid byte sequence. -/
def evC7bad : RawEvent :=
  { ts := some (.num 5), type := some (.str "rename"),
    success := some (.bool true), details := [("renamed_from", .str "/a"), ("renamed_to", .bytes [254, 1])] }

/-- A failed event with `error_name: "ENOENT"` and an additional
bytes-valued detail, so formatting it raises. -/
def evC8bad : RawEvent :=
  { ts := some (.num 10), type := some (.str "open"),
    success := some (.bool false),
    details := [("error_name", .str "ENOENT"), ("flags", .bytes [2])] }

/-- A failed `open` event with `error_name: "ENOENT"` and one ordinary
detail. -/
def evC8good : RawEvent :=
  { ts := some (.num 1700000000), type := some (.str "open"),
    success := some (.bool false),
    details := [("fd", .num 3), ("error_name", .str "ENOENT")] }

/-- A successful event carrying `error_name: "ENOENT"` between two long
string details: the joined details string is 151 characters, so the
100-character shortening cuts the `error_name` entry out of the middle. -/
def evC9bad : RawEvent :=
  { ts := some (.num 1), type := some (.str "read"),
    success := some (.bool true),
    details :=
      [("a", .str "xxxxxxxxxxxxxxxxxxxxxxxxxxxxxxxxxxxxxxxxxxxxxxxxxxxxxxxxxxxx"),
       ("error_name", .str "ENOENT"),
       ("z", .str "xxxxxxxxxxxxxxxxxxxxxxxxxxxxxxxxxxxxxxxxxxxxxxxxxxxxxxxxxxxx")] }

/-- A failed event with `error_name: "ENOENT"` and short details. -/
def evC9good : RawEvent :=
  { ts := some (.num 2), type := some (.str "stat"),
    success := some (.bool false), details := [("error_name", .str "ENOENT")] }

/-- An event whose `target_path` detail is an ordinary string, not bytes. -/
def evC10 : RawEvent :=
  { ts := some (.num 3), type := some (.str "open"),
    success := some (.bool true),
    details := [("target_path", .str "/tmp/a"), ("fd", .num 5)] }

/-! ### Association-list helper lemmas -/

theorem alookup_dictSet_self (l : List (String × α)) (k : String) (v : α) :
    alookup k (dictSet l k v) = some v := by
  induction l with
  | nil => simp [dictSet, alookup]
  | cons p rest ih =>
      obtain ⟨k', v'⟩ := p
      by_cases h : k' = k
      · simp [dictSet, h, alookup]
      · simp [dictSet, h, alookup, ih]

theorem alookup_dictSet_ne (l : List (String × α)) (k k' : String) (v : α)
    (h : k' ≠ k) : alookup k' (dictSet l k v) = alookup k' l := by
  have hk : ¬ k = k' := fun hh => h (Eq.symm hh)
  induction l with
  | nil => simp [dictSet, alookup, hk]
  | cons p rest ih =>
      obtain ⟨k₀, v₀⟩ := p
      by_cases h0 : k₀ = k
      · subst h0
        simp [dictSet, alookup, hk]
      · by_cases h1 : k₀ = k'
        · simp [dictSet, h0, alookup, h1, h]
        · simp [dictSet, h0, alookup, h1, ih]

theorem dictSet_of_not_mem (l : List (String × α)) (k : String) (v : α)
    (h : k ∉ l.map Prod.fst) : dictSet l k v = l ++ [(k, v)] := by
  induction l with
  | nil => simp [dictSet]
  | cons p rest ih =>
      obtain ⟨k', v'⟩ := p
      simp only [List.map_cons, List.mem_cons] at h
      push_neg at h
      have h1 : ¬ k' = k := fun hh => h.1 (Eq.symm hh)
      simp [dictSet, h1, ih h.2]

theorem keys_dictSet_subset (l : List (String × α)) (k : String) (v : α) :
    (dictSet l k v).map Prod.fst ⊆ k :: l.map Prod.fst := by
  induction l with
  | nil => simp [dictSet]
  | cons p rest ih =>
      obtain ⟨k₀, v₀⟩ := p
      by_cases h0 : k₀ = k
      · subst h0
        simp only [dictSet, if_pos rfl, List.map_cons]
        exact fun x hx => List.mem_cons_of_mem _ hx
      · simp only [dictSet, if_neg h0, List.map_cons]
        intro x hx
        rcases List.mem_cons.mp hx with rfl | hx
        · exact List.mem_cons_of_mem _ (List.mem_cons_self _ _)
        · rcases List.mem_cons.mp (ih hx) with rfl | hmem
          · exact List.mem_cons_self _ _
          · exact List.mem_cons_of_mem _ (List.mem_cons_of_mem _ hmem)

theorem alookup_mem (l : List (String × α)) (k : String) (v : α)
    (h : alookup k l = some v) : (k, v) ∈ l := by
  induction l with
  | nil => simp [alookup] at h
  | cons p rest ih =>
      obtain ⟨k', v'⟩ := p
      by_cases h0 : k' = k
      · subst h0
        simp [alookup] at h
        subst h
        exact List.mem_cons_self _ _
      · simp only [alookup, if_neg h0] at h
        exact List.mem_cons_of_mem _ (ih h)

theorem alookup_none_of_not_mem (l : List (String × α)) (k : String)
    (h : k ∉ l.map Prod.fst) : alookup k l = Option.none := by
  induction l with
  | nil => simp [alookup]
  | cons p rest ih =>
      obtain ⟨k', v'⟩ := p
      simp only [List.map_cons, List.mem_cons] at h
      push_neg at h
      have h1 : ¬ k' = k := fun hh => h.1 (Eq.symm hh)
      simp [alookup, h1, ih h.2]

/-! ### Lemmas about the table-building loop -/

theorem buildLoop_error_of_mem (tz : Int) {e : RawEvent} {err : PyErr}
    (he : formatRow tz e = .error err) :
    ∀ (evts : List RawEvent), e ∈ evts → ∀ acc,
      ∃ err2, buildLoop tz evts acc = .error err2 := by
  intro evts
  induction evts with
  | nil => intro h; cases h
  | cons x rest ih =>
      intro hmem acc
      rcases List.mem_cons.mp hmem with rfl | hmem
      · exact ⟨err, by simp [buildLoop, he]⟩
      · cases hfr : formatRow tz x with
        | error err2 => exact ⟨err2, by simp [buildLoop, hfr]⟩
        | ok p =>
            obtain ⟨err2, h2⟩ := ih hmem (acc ++ [rowCells p.1])
            exact ⟨err2, by simp only [buildLoop, hfr]; exact h2⟩

theorem onMount_of_loop_error (tz : Int) (evts : List RawEvent) (err : PyErr)
    (hne : evts ≠ []) (h : buildLoop tz evts [] = .error err) :
    onMount tz evts =
      { rows := [["Error loading details: " ++ errStr err]]
        notified := true, errorLogged := true } := by
  unfold onMount
  rw [if_neg hne, h]

theorem buildLoop_ok_spec (tz : Int) :
    ∀ (evts : List RawEvent) (acc rows : List (List String)),
      buildLoop tz evts acc = .ok rows →
      rows.length = acc.length + evts.length ∧
      (∀ i, i < acc.length → rows[i]? = acc[i]?) ∧
      (∀ j e, evts[j]? = some e → ∃ r w,
        formatRow tz e = .ok (r, w) ∧ rows[acc.length + j]? = some (rowCells r)) := by
  intro evts
  induction evts with
  | nil =>
      intro acc rows h
      simp only [buildLoop, Except.ok.injEq] at h
      subst h
      exact ⟨by simp, fun i _ => rfl, fun j e hj => by simp at hj⟩
  | cons x rest ih =>
      intro acc rows h
      cases hfr : formatRow tz x with
      | error err2 => simp [buildLoop, hfr] at h
      | ok p =>
          obtain ⟨r, w⟩ := p
          simp only [buildLoop, hfr] at h
          obtain ⟨hlen, hpre, hpost⟩ := ih (acc ++ [rowCells r]) rows h
          refine ⟨by simp at hlen ⊢; omega, ?_, ?_⟩
          · intro i hi
            rw [hpre i (by simp; omega)]
            exact List.getElem?_append_left hi
          · intro j e hj
            cases j with
            | zero =>
                simp only [List.getElem?_cons_zero, Option.some.injEq] at hj
                subst hj
                refine ⟨r, w, hfr, ?_⟩
                have h1 := hpre acc.length (by simp)
                simp only [Nat.add_zero]
                rw [h1]
                simp
            | succ j' =>
                simp only [List.getElem?_cons_succ] at hj
                obtain ⟨r', w', hfr', hrow⟩ := hpost j' e hj
                refine ⟨r', w', hfr', ?_⟩
                have hidx : acc.length + (j' + 1) = (acc ++ [rowCells r]).length + j' := by
                  simp only [List.length_append, List.length_cons, List.length_nil]
                  omega
                rw [hidx]
                exact hrow

/-! ### The claims -/

/-- C1 (code bug): for an event whose `target_path` detail is the invalid
byte sequence `b"\xff"`, the source is meant to decode it for display, but
`os.fsdecode(v, "surrogateescape")` (line 159) passes two arguments to the
one-argument `os.fsdecode`, so formatting raises `TypeError` instead of
producing a `target_path=` entry; the whole build degrades to the single
fallback error row. -/
theorem c1_target_path_bytes_raises :
    formatRow 0 evC1 = .error .typeError ∧
    onMount 0 [evC1] =
      { rows := [["Error loading details: " ++ errStr .typeError]]
        notified := true, errorLogged := true } := by
  constructor
  · decide
  · decide

/-- C2 (counterexample): a batch of one well-formed event followed by one
event whose `ts` is a string.  The claim says each event still yields its
own row (2 rows, the first one normal); in fact the exception of the
second event aborts the whole batch, the table is cleared, and exactly one
error row remains. -/
theorem c2_per_event_recovery_counterexample :
    (onMount 0 [evC2good, evC2bad]).rows =
      [["Error loading details: " ++ errStr .valueError]] ∧
    (onMount 0 [evC2good, evC2bad]).rows.length ≠ 2 := by
  constructor
  · decide
  · decide

/-- C2 (amended): an exception while formatting one event is NOT caught at
the per-event level — there is no per-event handler in the source; it
propagates to the whole-table handler, which discards every previously
built row and leaves a single error row plus a notification. -/
theorem c2_exception_aborts_batch (tz : Int) (evts : List RawEvent)
    (e : RawEvent) (err : PyErr) (hmem : e ∈ evts)
    (he : formatRow tz e = .error err) :
    ∃ err2, buildLoop tz evts [] = .error err2 ∧
      onMount tz evts =
        { rows := [["Error loading details: " ++ errStr err2]]
          notified := true, errorLogged := true } := by
  obtain ⟨err2, h2⟩ := buildLoop_error_of_mem tz he evts hmem []
  refine ⟨err2, h2, onMount_of_loop_error tz evts err2 ?_ h2⟩
  rintro rfl
  cases hmem

/-- C2 witness: the amended statement applied to the concrete batch
`[evC2good, evC2bad]`. -/
theorem c2_exception_aborts_batch_witness :
    ∃ err2, buildLoop 0 [evC2good, evC2bad] [] = .error err2 ∧
      onMount 0 [evC2good, evC2bad] =
        { rows := [["Error loading details: " ++ errStr err2]]
          notified := true, errorLogged := true } :=
  c2_exception_aborts_batch 0 [evC2good, evC2bad] evC2bad .valueError
    (by decide) (by decide)

/-- C4: an empty event history yields exactly the single informational row
with the literal text, no notification and no logged error; the event loop
is never entered. -/
theorem c4_empty_history (tz : Int) :
    onMount tz [] =
      { rows := [["No event history recorded for this file."]]
        notified := false, errorLogged := false } := rfl

/-- C7: when the table build raises (the loop returns an error), the
partial rows are cleared and replaced by the single fallback error row,
the failure is reported through the non-fatal notification, and `onMount`
(a total function here) propagates no exception. -/
theorem c7_whole_table_fallback (tz : Int) (evts : List RawEvent)
    (err : PyErr) (hne : evts ≠ []) (h : buildLoop tz evts [] = .error err) :
    (onMount tz evts).rows = [["Error loading details: " ++ errStr err]] ∧
    (onMount tz evts).rows.length = 1 ∧
    (onMount tz evts).notified = true := by
  rw [onMount_of_loop_error tz evts err hne h]
  exact ⟨rfl, rfl, rfl⟩

/-- C7 witness: the fallback behaviour on the concrete batch `[evC7bad]`,
whose `renamed_to` bytes detail makes the loop raise. -/
theorem c7_whole_table_fallback_witness :
    (onMount 0 [evC7bad]).rows =
      [["Error loading details: " ++ errStr .typeError]] ∧
    (onMount 0 [evC7bad]).rows.length = 1 ∧
    (onMount 0 [evC7bad]).notified = true :=
  c7_whole_table_fallback 0 [evC7bad] .typeError (by decide) (by decide)

/-- C5 (counterexample): a non-empty two-event sequence whose first event
raises during formatting: the built table has a single error row, not one
row per event. -/
theorem c5_one_row_per_event_counterexample :
    (onMount 0 [evC5bad, evC5a]).rows.length ≠ 2 := by
  decide

/-- C5 (amended): when every event formats without an exception (the loop
returns `ok`), the builder appends exactly one row per event and the j-th
table row is exactly the formatted row of the j-th event — order is
preserved and nothing is deduplicated, for every input sequence. -/
theorem c5_rows_in_input_order (tz : Int) (evts : List RawEvent)
    (rows : List (List String)) (hne : evts ≠ [])
    (h : buildLoop tz evts [] = .ok rows) :
    (onMount tz evts).rows = rows ∧
    rows.length = evts.length ∧
    (∀ (j : Nat) (e : RawEvent), evts[j]? = some e → ∃ r w,
      formatRow tz e = .ok (r, w) ∧ rows[j]? = some (rowCells r)) := by
  obtain ⟨hlen, _, hpost⟩ := buildLoop_ok_spec tz evts [] rows h
  refine ⟨?_, by simpa using hlen, ?_⟩
  · unfold onMount
    rw [if_neg hne, h]
  · intro j e hj
    simpa using hpost j e hj

/-- C5 witness: the order-preservation statement applied to the concrete
two-event batch `[evC5a, evC5b]`. -/
theorem c5_rows_in_input_order_witness :
    (onMount 0 [evC5a, evC5b]).rows =
      [["22:13:20.000", "📕 CLOSE", "OK", "fd=4"],
       ["22:13:21.000", "❗ OPEN", "FAIL", "error_name='EACCES', ERROR='EACCES'"]] ∧
    (onMount 0 [evC5a, evC5b]).rows.length = 2 := by
  have h := c5_rows_in_input_order 0 [evC5a, evC5b]
    [["22:13:20.000", "📕 CLOSE", "OK", "fd=4"],
     ["22:13:21.000", "❗ OPEN", "FAIL", "error_name='EACCES', ERROR='EACCES'"]]
    (by decide) (by decide)
  refine ⟨h.1, ?_⟩
  rw [h.1]
  rfl

/-! ### Timestamp formatting (C3, C6) -/

theorem data_mk (l : List Char) : (String.mk l).data = l := rfl

theorem data_colon : (":" : String).data = [':'] := rfl

theorem data_dot : ("." : String).data = ['.'] := rfl

theorem usecOfDay_lt (u : Int) : usecOfDay u < 86400000000 := by
  unfold usecOfDay usecPerDay
  have h1 : u % 86400000000 < 86400000000 := Int.emod_lt_of_pos u (by norm_num)
  omega

/-- Slicing `[:-3]` off the `%H:%M:%S.%f` rendering leaves `HH:MM:SS.mmm`,
where the millisecond field is the microsecond field divided by 1000 —
i.e. truncated, not rounded. -/
theorem dropLast3_strftimeHMSf (d : Nat) :
    dropLast3 (strftimeHMSfOfDay d) =
      pad2 (d / 3600000000) ++ ":" ++
        pad2 (d / 60000000 % 60) ++ ":" ++
        pad2 (d / 1000000 % 60) ++ "." ++
        pad3 (d % 1000000 / 1000) := by
  have htake : ∀ (l₁ l₂ : List Char), l₁.length = 12 → l₂.length = 3 →
      (l₁ ++ l₂).take ((l₁ ++ l₂).length - 3) = l₁ := by
    intro l₁ l₂ h₁ h₂
    rw [List.length_append, h₁, h₂]
    norm_num
    rw [← h₁, List.take_left]
  have h1 : (strftimeHMSfOfDay d).data =
      [digitChar (d / 3600000000 / 10), digitChar (d / 3600000000), ':',
       digitChar (d / 60000000 % 60 / 10), digitChar (d / 60000000 % 60), ':',
       digitChar (d / 1000000 % 60 / 10), digitChar (d / 1000000 % 60), '.',
       digitChar (d % 1000000 / 100000), digitChar (d % 1000000 / 10000),
       digitChar (d % 1000000 / 1000)] ++
      [digitChar (d % 1000000 / 100), digitChar (d % 1000000 / 10),
       digitChar (d % 1000000)] := by
    simp [strftimeHMSfOfDay, pad2, pad6, String.data_append, data_mk, data_colon, data_dot]
  simp only [dropLast3, h1]
  rw [htake _ _ (by simp) (by simp)]
  apply String.ext
  simp [pad2, pad3, String.data_append, data_mk, data_colon, data_dot,
    Nat.div_div_eq_div_mul]

/-- C3 (counterexample): an event whose `ts` is the string `"abc"`: the
unconditional fallback `ts_str = f"{ts_raw:.3f}"` at line 96 itself raises
`ValueError` before the guarded conversion, so a non-numeric timestamp is
NOT recovered locally and row construction aborts. -/
theorem c3_nonnumeric_ts_counterexample :
    formatTs 0 (.str "abc") = .error .valueError ∧
    formatRow 0 evC3bad = .error .valueError := by
  constructor
  · rfl
  · decide

/-- C3 (amended): only a `ts` that is numeric, positive, within the
platform `time_t` range, and whose local date is out of the supported
year range is recovered locally — the fallback three-decimal rendering is
substituted, the warning is logged, and the row is not aborted (the
raised `ValueError`/`OSError` is in line 102's `except` tuple).  The two
other anomalous regimes abort the row instead: a non-numeric `ts` raises
at the unconditional fallback formatting itself (see the counterexample),
and a `ts` beyond the `time_t` range raises `OverflowError` inside the
guarded block, which the `except` tuple does not catch. -/
theorem c3_out_of_range_ts_recovered (tz : Int) (v : PyVal) (q : ℚ)
    (hnum : toNum v = some q) (hpos : 0 < q) :
    (tsFitsTimeT q = true → tsConvertible (localUsec tz q) = false →
      formatTs tz v = .ok (formatF3 q, true)) ∧
    (tsFitsTimeT q = false → formatTs tz v = .error .overflowError) := by
  constructor
  · intro hfits hconv
    simp [formatTs, hnum, hpos, hfits, hconv]
  · intro hfits
    simp [formatTs, hnum, hpos, hfits]

/-- C3 witness: `ts = 10^12` (fits `time_t`, local year 33658 out of
range) is recovered to the fallback text with a warning, while
`ts = 10^19` (beyond the 64-bit `time_t` range) raises the uncaught
`OverflowError`. -/
theorem c3_out_of_range_ts_recovered_witness :
    formatTs 0 (.num 1000000000000) = .ok ("1000000000000.000", true) ∧
    formatTs 0 (.num 10000000000000000000) = .error .overflowError := by
  have h1 := c3_out_of_range_ts_recovered 0 (.num 1000000000000)
    1000000000000 rfl (by decide)
  have h2 := c3_out_of_range_ts_recovered 0 (.num 10000000000000000000)
    10000000000000000000 rfl (by decide)
  constructor
  · rw [h1.1 (by decide) (by decide)]
    decide
  · exact h2.2 (by decide)

/-- C6: for an event with a numeric `ts`: if `ts` is positive and
convertible to a local time — i.e. `fromtimestamp` succeeds: the seconds
value fits `time_t` and the local date is in the supported year range —
the timestamp text is `HH:MM:SS.` followed by the three-digit millisecond
obtained by truncating the microsecond field (each field in its
zero-padded range); if `ts` is absent (default 0), zero, or negative, the
text is the raw numeric value rendered with three decimals. -/
theorem c6_timestamp_format (tz : Int) (e : RawEvent) (q : ℚ)
    (hq : toNum (e.ts.getD (.num 0)) = some q) :
    (0 < q → tsFitsTimeT q = true → tsConvertible (localUsec tz q) = true →
      formatTs tz (e.ts.getD (.num 0)) =
        .ok (pad2 (usecOfDay (localUsec tz q) / 3600000000) ++ ":" ++
             pad2 (usecOfDay (localUsec tz q) / 60000000 % 60) ++ ":" ++
             pad2 (usecOfDay (localUsec tz q) / 1000000 % 60) ++ "." ++
             pad3 (usecOfDay (localUsec tz q) % 1000000 / 1000), false) ∧
      usecOfDay (localUsec tz q) / 3600000000 < 24 ∧
      usecOfDay (localUsec tz q) / 60000000 % 60 < 60 ∧
      usecOfDay (localUsec tz q) / 1000000 % 60 < 60 ∧
      usecOfDay (localUsec tz q) % 1000000 / 1000 < 1000) ∧
    (¬ 0 < q → formatTs tz (e.ts.getD (.num 0)) = .ok (formatF3 q, false)) := by
  constructor
  · intro hpos hfits hconv
    have hlt := usecOfDay_lt (localUsec tz q)
    refine ⟨?_, by omega, by omega, by omega, by omega⟩
    simp [formatTs, hq, hpos, hfits, hconv, strftimeHMSf, dropLast3_strftimeHMSf]
  · intro hneg
    simp [formatTs, hq, hneg]

/-- C6 witness: `ts = 1700000000.123` under UTC offset 0 renders as
`22:13:20.123`, and `ts = 0` renders as `0.000`. -/
theorem c6_timestamp_format_witness :
    formatTs 0 (evC6.ts.getD (.num 0)) = .ok ("22:13:20.123", false) ∧
    formatTs 0 ((Option.none : Option PyVal).getD (.num 0)) = .ok ("0.000", false) := by
  have h := c6_timestamp_format 0 evC6 (mkRat 1700000000123 1000) rfl
  have h1 := h.1 (by decide) (by decide) (by decide)
  have h2 := c6_timestamp_format 0
    { ts := Option.none, type := Option.none, success := Option.none, details := [] }
    0 rfl
  constructor
  · rw [h1.1]
    decide
  · exact h2.2 (by decide)

/-! ### Lemmas about the details pipeline (C8, C9, C10) -/

theorem filterLoop_cons_eq (k₀ : String) (v₀ : PyVal)
    (rest : List (String × PyVal)) (acc : List (String × DetailVal)) :
    filterLoop ((k₀, v₀) :: rest) acc =
      if k₀ ∈ EXCLUDED then filterLoop rest acc
      else
        match v₀ with
        | .bytes _ => .error .typeError
        | v => filterLoop rest (dictSet acc k₀ (.py v)) := rfl

theorem filterLoop_alookup_excluded (dl : List (String × PyVal)) :
    ∀ (acc fd : List (String × DetailVal)) (k : String), k ∈ EXCLUDED →
      filterLoop dl acc = .ok fd → alookup k fd = alookup k acc := by
  induction dl with
  | nil =>
      intro acc fd k _ h
      simp only [filterLoop, Except.ok.injEq] at h
      rw [h]
  | cons p rest ih =>
      obtain ⟨k₀, v₀⟩ := p
      intro acc fd k hk h
      rw [filterLoop_cons_eq] at h
      by_cases hex : k₀ ∈ EXCLUDED
      · rw [if_pos hex] at h
        exact ih acc fd k hk h
      · rw [if_neg hex] at h
        cases v₀ <;>
          first
            | (rw [ih _ fd k hk h]
               exact alookup_dictSet_ne acc k₀ k _ (fun hh => hex (hh ▸ hk)))
            | cases h

theorem filterLoop_alookup_of_not_mem (dl : List (String × PyVal)) :
    ∀ (acc fd : List (String × DetailVal)) (k : String),
      k ∉ dl.map Prod.fst → filterLoop dl acc = .ok fd →
      alookup k fd = alookup k acc := by
  induction dl with
  | nil =>
      intro acc fd k _ h
      simp only [filterLoop, Except.ok.injEq] at h
      rw [h]
  | cons p rest ih =>
      obtain ⟨k₀, v₀⟩ := p
      intro acc fd k hk h
      simp only [List.map_cons, List.mem_cons] at hk
      push_neg at hk
      rw [filterLoop_cons_eq] at h
      by_cases hex : k₀ ∈ EXCLUDED
      · rw [if_pos hex] at h
        exact ih acc fd k hk.2 h
      · rw [if_neg hex] at h
        cases v₀ <;>
          first
            | (rw [ih _ fd k hk.2 h]
               exact alookup_dictSet_ne acc k₀ k _ hk.1)
            | cases h

theorem filterLoop_keys_subset (dl : List (String × PyVal)) :
    ∀ (acc fd : List (String × DetailVal)) (k : String),
      filterLoop dl acc = .ok fd → k ∈ fd.map Prod.fst →
      k ∈ acc.map Prod.fst ∨ k ∈ dl.map Prod.fst := by
  induction dl with
  | nil =>
      intro acc fd k h hk
      simp only [filterLoop, Except.ok.injEq] at h
      subst h
      exact Or.inl hk
  | cons p rest ih =>
      obtain ⟨k₀, v₀⟩ := p
      intro acc fd k h hk
      rw [filterLoop_cons_eq] at h
      by_cases hex : k₀ ∈ EXCLUDED
      · rw [if_pos hex] at h
        rcases ih acc fd k h hk with h1 | h1
        · exact Or.inl h1
        · exact Or.inr (List.mem_cons_of_mem _ h1)
      · rw [if_neg hex] at h
        cases v₀ <;>
          first
            | (exact (ih _ fd k h hk).elim
                (fun h1 => (List.mem_cons.mp (keys_dictSet_subset acc k₀ _ h1)).elim
                  (fun h2 => Or.inr (List.mem_cons.mpr (Or.inl h2)))
                  (fun h2 => Or.inl h2))
                (fun h1 => Or.inr (List.mem_cons.mpr (Or.inr h1))))
            | cases h

theorem filterLoop_alookup_mem (dl : List (String × PyVal)) :
    ∀ (acc fd : List (String × DetailVal)) (k : String) (v : PyVal),
      (dl.map Prod.fst).Nodup → (k, v) ∈ dl → k ∉ EXCLUDED →
      (∀ bs, v ≠ .bytes bs) → filterLoop dl acc = .ok fd →
      alookup k fd = some (.py v) := by
  induction dl with
  | nil => intro _ _ _ _ _ hmem; cases hmem
  | cons p rest ih =>
      obtain ⟨k₀, v₀⟩ := p
      intro acc fd k v hnd hmem hexk hnb h
      simp only [List.map_cons, List.nodup_cons] at hnd
      rw [filterLoop_cons_eq] at h
      rcases List.mem_cons.mp hmem with heq | hmem'
      · injection heq with h1 h2
        subst h1
        subst h2
        rw [if_neg hexk] at h
        cases v <;>
          first
            | (rw [filterLoop_alookup_of_not_mem rest _ fd _ hnd.1 h]
               exact alookup_dictSet_self acc _ _)
            | exact absurd rfl (hnb _)
      · by_cases hex : k₀ ∈ EXCLUDED
        · rw [if_pos hex] at h
          exact ih acc fd k v hnd.2 hmem' hexk hnb h
        · rw [if_neg hex] at h
          cases v₀ <;>
            first
              | exact ih _ fd k v hnd.2 hmem' hexk hnb h
              | cases h

theorem addPathKeysAux_ok (details : List (String × PyVal)) :
    ∀ (ks : List String) (acc fd : List (String × DetailVal)),
      addPathKeysAux details ks acc = .ok fd → fd = acc := by
  intro ks
  induction ks with
  | nil =>
      intro acc fd h
      simp only [addPathKeysAux, Except.ok.injEq] at h
      exact h.symm
  | cons k ks ih =>
      intro acc fd h
      cases hl : alookup k details with
      | none =>
          simp only [addPathKeysAux, hl] at h
          exact ih acc fd h
      | some v =>
          cases v <;>
            first
              | (simp only [addPathKeysAux, hl] at h
                 exact ih acc fd h)
              | (simp only [addPathKeysAux, hl] at h
                 cases h)

theorem addError_assigns (details : List (String × PyVal))
    (acc : List (String × DetailVal)) (s : String)
    (hname : alookup "error_name" details = some (.str s)) (hs : s ≠ "") :
    addError details false acc = .ok (dictSet acc "ERROR" (.text s)) := by
  simp [addError, hname, truthy, hs]

theorem addError_skips (details : List (String × PyVal)) (succ : Bool)
    (acc : List (String × DetailVal))
    (h : truthy ((alookup "error_name" details).getD .none) = false ∨ succ = true) :
    addError details succ acc = .ok acc := by
  rcases h with h | h <;> simp [addError, h]

theorem addError_shape (details : List (String × PyVal)) (succ : Bool)
    (acc fd : List (String × DetailVal)) (h : addError details succ acc = .ok fd) :
    fd = acc ∨ ∃ s, fd = dictSet acc "ERROR" (DetailVal.text s) := by
  simp only [addError] at h
  split at h
  · split at h <;>
      first
        | (injection h with h
           exact Or.inr ⟨_, h.symm⟩)
        | cases h
  · injection h with h
    exact Or.inl h.symm

theorem suffix_append_right {α : Type} {t l₂ : List α} (l₁ : List α)
    (h : t <:+ l₂) : t <:+ l₁ ++ l₂ := by
  obtain ⟨p, hp⟩ := h
  exact ⟨l₁ ++ p, by rw [List.append_assoc, hp]⟩

theorem infix_append_left {α : Type} {t l₂ : List α} (l₁ : List α)
    (h : t <:+: l₂) : t <:+: l₁ ++ l₂ := by
  obtain ⟨s, r, hsr⟩ := h
  exact ⟨l₁ ++ s, r, by rw [← hsr]; simp [List.append_assoc]⟩

theorem joinSep_cons_of_ne_nil (sep y : String) (l : List String) (h : l ≠ []) :
    joinSep sep (y :: l) = y ++ sep ++ joinSep sep l := by
  cases l with
  | nil => exact absurd rfl h
  | cons z zs => rfl

theorem joinSep_suffix (sep : String) (l : List String) (x : String) :
    x.data <:+ (joinSep sep (l ++ [x])).data := by
  induction l with
  | nil => exact List.suffix_refl _
  | cons y ys ih =>
      rw [List.cons_append, joinSep_cons_of_ne_nil sep y (ys ++ [x]) (by simp),
        String.data_append]
      exact suffix_append_right _ ih

theorem joinSep_infix_of_mem (sep : String) (l : List String) (x : String)
    (h : x ∈ l) : x.data <:+: (joinSep sep l).data := by
  induction l with
  | nil => cases h
  | cons y ys ih =>
      rcases List.mem_cons.mp h with rfl | h'
      · cases ys with
        | nil => exact List.infix_refl _
        | cons z zs =>
            rw [joinSep_cons_of_ne_nil sep x (z :: zs) (by simp),
              String.data_append, String.data_append]
            exact ⟨[], sep.data ++ (joinSep sep (z :: zs)).data,
              by simp [List.append_assoc]⟩
      · cases ys with
        | nil => cases h'
        | cons z zs =>
            rw [joinSep_cons_of_ne_nil sep y (z :: zs) (by simp),
              String.data_append]
            exact infix_append_left _ (ih h')

theorem shorten_of_fits (s : String) (n : Nat) (h : s.data.length ≤ n) :
    shorten s n = s := by
  unfold shorten
  rw [if_pos h]

/-- With the width budget 100 the shortener keeps `budget − prefix =
99 − 39 = 60` trailing characters, so any suffix of at most 60 characters
of the input survives (as a suffix of the kept tail) in the output. -/
theorem shorten100_keeps_suffix (s t : String) (hsuf : t.data <:+ s.data)
    (hlen : t.data.length ≤ 60) : t.data <:+: (shorten s 100).data := by
  by_cases hfit : s.data.length ≤ 100
  · rw [shorten_of_fits s 100 hfit]
    exact hsuf.isInfix
  · obtain ⟨p, hp⟩ := hsuf
    have hplen : p.length + t.data.length = s.data.length := by
      rw [← hp, List.length_append]
    have hk : s.data.length - 60 ≤ p.length := by omega
    have hdrop : s.data.drop (s.data.length - 60) =
        p.drop (s.data.length - 60) ++ t.data := by
      rw [← hp, List.length_append]
      exact List.drop_append_of_le_length (by omega)
    have h1 : t.data <:+ s.data.drop (s.data.length - 60) := by
      rw [hdrop]
      exact List.suffix_append _ _
    have h2 : t.data <:+
        s.data.take 39 ++ '…' :: s.data.drop (s.data.length - 60) :=
      suffix_append_right _ (suffix_append_right ['…'] h1)
    have h3 : (shorten s 100).data =
        s.data.take 39 ++ '…' :: s.data.drop (s.data.length - 60) := by
      unfold shorten
      rw [if_neg hfit, if_neg (by norm_num : ¬ (100 : Nat) < 2)]
    rw [h3]
    exact h2.isInfix

/-- Unpacking a successful `formatRow`: the filtered details it used, and
the outcome and details cell texts it produced. -/
theorem formatRow_ok_result_details (tz : Int) (e : RawEvent)
    (row : DisplayRow) (w : Bool) (h : formatRow tz e = .ok (row, w)) :
    ∃ fd, filteredDetails e = .ok fd ∧
      row.resultText = (if truthy (e.success.getD (.bool true)) then "OK" else "FAIL") ∧
      row.detailsText = shorten (joinSep ", " (fd.map partOf)) 100 := by
  unfold formatRow detailsJoined at h
  cases hts : formatTs tz (e.ts.getD (.num 0)) with
  | error err => rw [hts] at h; cases h
  | ok p =>
      obtain ⟨tsStr, w'⟩ := p
      rw [hts] at h
      cases hfd : filteredDetails e with
      | error err => rw [hfd] at h; cases h
      | ok fd =>
          rw [hfd] at h
          simp only [Except.ok.injEq, Prod.mk.injEq] at h
          obtain ⟨hrow, hw⟩ := h
          subst hrow
          exact ⟨fd, rfl, rfl, rfl⟩

/-- Unpacking a successful `filteredDetails`: the filter-loop output it
went through and how the `ERROR` entry was attached. -/
theorem filteredDetails_ok_parts (e : RawEvent)
    (fd : List (String × DetailVal)) (h : filteredDetails e = .ok fd) :
    ∃ fd0, filterLoop e.details [] = .ok fd0 ∧
      addError e.details (truthy (e.success.getD (.bool true))) fd0 = .ok fd := by
  unfold filteredDetails at h
  cases hf0 : filterLoop e.details [] with
  | error err => rw [hf0] at h; cases h
  | ok fd0 =>
      simp only [hf0] at h
      cases hpk : addPathKeys e.details fd0 with
      | error err =>
          simp only [hpk] at h
          cases h
      | ok fd1 =>
          simp only [hpk] at h
          unfold addPathKeys at hpk
          have h10 : fd1 = fd0 := addPathKeysAux_ok e.details PATH_KEYS fd0 fd1 hpk
          subst h10
          exact ⟨fd1, rfl, h⟩

/-- C8 (amended): for a failed event carrying `error_name: "ENOENT"` that
formats without an exception (its other details hold no byte values) and
has no literal `"ERROR"` detail key, the outcome text is `FAIL` and the
details text contains `ERROR='ENOENT'` whatever the declared event type —
the entry is appended last, and the shortener always keeps a 60-character
tail, so it survives even when the details string is truncated.  Moreover
the emphasized `ERROR` entry is assigned to the filtered details exactly
when an error name is present (truthy) and the event is a failure. -/
theorem c8_fail_and_error_entry (tz : Int) (e : RawEvent) (row : DisplayRow)
    (w : Bool) (hsucc : e.success = some (.bool false))
    (hname : alookup "error_name" e.details = some (.str "ENOENT"))
    (hkey : "ERROR" ∉ e.details.map Prod.fst)
    (hfmt : formatRow tz e = .ok (row, w)) :
    row.resultText = "FAIL" ∧
    ("ERROR='ENOENT'" : String).data <:+: row.detailsText.data ∧
    (∀ (details : List (String × PyVal)) (acc : List (String × DetailVal)) (s : String),
      alookup "error_name" details = some (.str s) → s ≠ "" →
      addError details false acc = .ok (dictSet acc "ERROR" (.text s))) ∧
    (∀ (details : List (String × PyVal)) (succ : Bool) (acc : List (String × DetailVal)),
      truthy ((alookup "error_name" details).getD .none) = false ∨ succ = true →
      addError details succ acc = .ok acc) := by
  obtain ⟨fd, hfd, hres, hdet⟩ := formatRow_ok_result_details tz e row w hfmt
  have hsuccb : truthy (e.success.getD (.bool true)) = false := by rw [hsucc]; rfl
  obtain ⟨fd0, hf0, hadd⟩ := filteredDetails_ok_parts e fd hfd
  rw [hsuccb] at hadd
  rw [addError_assigns e.details fd0 "ENOENT" hname (by decide)] at hadd
  injection hadd with hadd
  have hnk : "ERROR" ∉ fd0.map Prod.fst := by
    intro hmem
    rcases filterLoop_keys_subset e.details [] fd0 "ERROR" hf0 hmem with h | h
    · simp at h
    · exact hkey h
  refine ⟨?_, ?_, addError_assigns, addError_skips⟩
  · rw [hres, hsuccb]
    rfl
  · rw [hdet, ← hadd, dictSet_of_not_mem fd0 "ERROR" _ hnk, List.map_append]
    have hpart : partOf ("ERROR", DetailVal.text "ENOENT") = "ERROR='ENOENT'" := by
      decide
    apply shorten100_keeps_suffix
    · have hsfx := joinSep_suffix ", " (fd0.map partOf)
        (partOf ("ERROR", DetailVal.text "ENOENT"))
      rw [hpart] at hsfx
      exact hsfx
    · decide

set_option maxRecDepth 16384 in
/-- C9 (counterexample): a successful event whose details are
`a=<60 chars>, error_name='ENOENT', z=<60 chars>`.  It formats without an
exception, but the joined details string is 151 characters, so the
100-character shortening keeps only a 39-character head and a 60-character
tail: the `error_name='ENOENT'` entry sits in the removed middle and the
final details text does not contain it. -/
theorem c9_error_name_truncation_counterexample :
    formatRow 0 evC9bad =
      .ok ({ tsText := "00:00:01.000", eventText := "📖 READ", resultText := "OK",
             detailsText := "a='xxxxxxxxxxxxxxxxxxxxxxxxxxxxxxxxxxxx…xxxxxxxxxxxxxxxxxxxxxxxxxxxxxxxxxxxxxxxxxxxxxxxxxxxxxxxxxxx'" },
           false) ∧
    alookup "error_name" evC9bad.details = some (.str "ENOENT") ∧
    ¬ (("error_name=" ++ pyReprStr "ENOENT").data <:+:
        ("a='xxxxxxxxxxxxxxxxxxxxxxxxxxxxxxxxxxxx…xxxxxxxxxxxxxxxxxxxxxxxxxxxxxxxxxxxxxxxxxxxxxxxxxxxxxxxxxxx'" : String).data) := by
  refine ⟨by decide, by decide, by decide⟩

/-- C9 (amended): for an event that formats without an exception, whose
details keys are unique and include `error_name` with a non-empty string
value, and whose joined details string fits the 100-character budget: the
details text (equal to the joined string) contains the ordinary
`error_name='<value>'` entry regardless of the success flag — `error_name`
is not among the excluded bookkeeping keys — and for a failed event it
additionally contains `ERROR='<value>'`, so the error name appears twice. -/
theorem c9_error_name_entry (tz : Int) (e : RawEvent) (row : DisplayRow)
    (w : Bool) (s : String) (dstr : String)
    (hnd : (e.details.map Prod.fst).Nodup)
    (hname : alookup "error_name" e.details = some (.str s)) (hs : s ≠ "")
    (hjoin : detailsJoined e = .ok dstr) (hfit : dstr.data.length ≤ 100)
    (hfmt : formatRow tz e = .ok (row, w)) :
    "error_name" ∉ EXCLUDED ∧
    row.detailsText = dstr ∧
    (("error_name=" ++ pyReprStr s) : String).data <:+: dstr.data ∧
    (truthy (e.success.getD (.bool true)) = false →
      (("ERROR=" ++ pyReprStr s) : String).data <:+: dstr.data) := by
  obtain ⟨fd, hfd, _, hdet⟩ := formatRow_ok_result_details tz e row w hfmt
  have hdstr : dstr = joinSep ", " (fd.map partOf) := by
    unfold detailsJoined at hjoin
    rw [hfd] at hjoin
    injection hjoin with hjoin
    exact hjoin.symm
  obtain ⟨fd0, hf0, hadd⟩ := filteredDetails_ok_parts e fd hfd
  have hen0 : alookup "error_name" fd0 = some (.py (.str s)) :=
    filterLoop_alookup_mem e.details [] fd0 "error_name" (.str s) hnd
      (alookup_mem e.details "error_name" _ hname) (by decide)
      (fun bs h => by cases h) hf0
  have hen : alookup "error_name" fd = some (.py (.str s)) := by
    cases hsb : truthy (e.success.getD (.bool true)) with
    | true =>
        rw [hsb, addError_skips e.details true fd0 (Or.inr rfl)] at hadd
        injection hadd with hadd
        rw [← hadd]
        exact hen0
    | false =>
        rw [hsb, addError_assigns e.details fd0 s hname hs] at hadd
        injection hadd with hadd
        rw [← hadd, alookup_dictSet_ne fd0 "ERROR" "error_name" _ (by decide)]
        exact hen0
  have hkey9 : ("error_name" : String) ++ "=" = "error_name=" := by decide
  refine ⟨by decide, ?_, ?_, ?_⟩
  · rw [hdet, ← hdstr]
    exact shorten_of_fits dstr 100 hfit
  · rw [hdstr]
    have hmem : ("error_name", DetailVal.py (.str s)) ∈ fd := alookup_mem fd _ _ hen
    have hin := joinSep_infix_of_mem ", " (fd.map partOf) _
      (List.mem_map_of_mem partOf hmem)
    have hform : partOf ("error_name", DetailVal.py (.str s)) =
        "error_name=" ++ pyReprStr s := by
      show ("error_name" : String) ++ "=" ++ pyReprStr s = _
      rw [hkey9]
    rw [hform] at hin
    exact hin
  · intro hsb
    rw [hsb, addError_assigns e.details fd0 s hname hs] at hadd
    injection hadd with hadd
    have herr : alookup "ERROR" fd = some (.text s) := by
      rw [← hadd]
      exact alookup_dictSet_self fd0 "ERROR" _
    have hmem : ("ERROR", DetailVal.text s) ∈ fd := alookup_mem fd _ _ herr
    have hin := joinSep_infix_of_mem ", " (fd.map partOf) _
      (List.mem_map_of_mem partOf hmem)
    have hform : partOf ("ERROR", DetailVal.text s) = "ERROR=" ++ pyReprStr s := by
      show ("ERROR" : String) ++ "=" ++ pyReprStr s = _
      rw [show ("ERROR" : String) ++ "=" = "ERROR=" by decide]
    rw [hform] at hin
    rw [hdstr]
    exact hin

/-- C10: a specially-named path key (`target_path`, `source_path`,
`renamed_to`, `renamed_from`) whose value is not a byte sequence is
omitted entirely from the filtered details: the generic filter excludes
it, the path-key loop re-adds a value only when it is bytes (in fact its
decode call raises, so it never adds anything), and the `ERROR` entry uses
a different key. -/
theorem c10_nonbytes_path_key_omitted (e : RawEvent) (k : String) (v : PyVal)
    (fd : List (String × DetailVal)) (hk : k ∈ PATH_KEYS)
    (hv : alookup k e.details = some v) (hnb : ∀ bs, v ≠ .bytes bs)
    (hfd : filteredDetails e = .ok fd) :
    alookup k fd = Option.none := by
  have hex : k ∈ EXCLUDED := by
    simp [PATH_KEYS] at hk
    rcases hk with rfl | rfl | rfl | rfl <;> decide
  have hne : k ≠ "ERROR" := by
    simp [PATH_KEYS] at hk
    rcases hk with rfl | rfl | rfl | rfl <;> decide
  obtain ⟨fd0, hf0, hadd⟩ := filteredDetails_ok_parts e fd hfd
  have h0 : alookup k fd0 = Option.none := by
    rw [filterLoop_alookup_excluded e.details [] fd0 k hex hf0]
    rfl
  rcases addError_shape e.details _ fd0 fd hadd with rfl | ⟨s, rfl⟩
  · exact h0
  · rw [alookup_dictSet_ne fd0 "ERROR" k _ hne]
    exact h0

/-- C8 (counterexample): a failed event with `error_name: "ENOENT"` and an
additional bytes-valued `flags` detail: the two-argument `os.fsdecode`
call raises `TypeError`, so the event produces no row at all — there is no
outcome text reading `FAIL` and no details text containing
`ERROR='ENOENT'`; the whole table build degrades to the fallback error
row instead. -/
theorem c8_error_entry_counterexample :
    formatRow 0 evC8bad = .error .typeError ∧
    (∀ (row : DisplayRow) (w : Bool), formatRow 0 evC8bad ≠ .ok (row, w)) := by
  have h1 : formatRow 0 evC8bad = .error .typeError := by decide
  refine ⟨h1, ?_⟩
  intro row w h
  rw [h1] at h
  cases h

/-- C8 witness: the amended statement applied to the concrete failed
`open` event `evC8good`. -/
theorem c8_fail_and_error_entry_witness :
    formatRow 0 evC8good =
      .ok ({ tsText := "22:13:20.000", eventText := "❗ OPEN", resultText := "FAIL",
             detailsText := "fd=3, error_name='ENOENT', ERROR='ENOENT'" }, false) ∧
    ("ERROR='ENOENT'" : String).data <:+:
      ("fd=3, error_name='ENOENT', ERROR='ENOENT'" : String).data := by
  have h := c8_fail_and_error_entry 0 evC8good
    { tsText := "22:13:20.000", eventText := "❗ OPEN", resultText := "FAIL",
      detailsText := "fd=3, error_name='ENOENT', ERROR='ENOENT'" } false
    rfl (by decide) (by decide) (by decide)
  exact ⟨by decide, h.2.1⟩

/-- C9 witness: the amended statement applied to the concrete failed
`stat` event `evC9good`, whose short details string fits the budget. -/
theorem c9_error_name_entry_witness :
    detailsJoined evC9good = .ok "error_name='ENOENT', ERROR='ENOENT'" ∧
    ("error_name=" ++ pyReprStr "ENOENT").data <:+:
      ("error_name='ENOENT', ERROR='ENOENT'" : String).data ∧
    ("ERROR=" ++ pyReprStr "ENOENT").data <:+:
      ("error_name='ENOENT', ERROR='ENOENT'" : String).data := by
  have h := c9_error_name_entry 0 evC9good
    { tsText := "00:00:02.000", eventText := "❗ STAT", resultText := "FAIL",
      detailsText := "error_name='ENOENT', ERROR='ENOENT'" } false "ENOENT"
    "error_name='ENOENT', ERROR='ENOENT'"
    (by decide) (by decide) (by decide) (by decide) (by decide) (by decide)
  exact ⟨by decide, h.2.2.1, h.2.2.2 (by decide)⟩

/-- C10 witness: the statement applied to `evC10`, whose `target_path`
detail is the string `"/tmp/a"`: the filtered details keep only `fd`. -/
theorem c10_nonbytes_path_key_omitted_witness :
    filteredDetails evC10 = .ok [("fd", DetailVal.py (.num 5))] ∧
    alookup "target_path" [("fd", DetailVal.py (.num 5))] = Option.none := by
  refine ⟨by decide, ?_⟩
  exact c10_nonbytes_path_key_omitted evC10 "target_path" (.str "/tmp/a") _
    (by decide) (by decide) (fun bs h => by cases h) (by decide)

end Lsoph
